import Mathlib

/-!
# Aeon2DEngine — shallow embedding and verification

A shallow embedding of the audio/resource bookkeeping layer of the
Aeon2DEngine repository (namespace `ae` in the C++ source), together with
theorems settling the specification claims.

Modelling conventions:
* C++ `float` values are modelled as exact rationals `ℚ`; all the arithmetic
  the claims are about (clamping with `fmaxf`/`fminf`, `g * v / 100`) is exact.
* `sqrtf` has irrational values on ℚ, so the derived field `minDistance3d_`
  (source: `AudioProperties.cpp`, `setMinDistance2D`) is represented by its
  square `minDistance3dSq`; since `sqrtf` is injective on non-negative
  arguments this determines the stored float uniquely, and equality claims
  about `minDistance3D` are equivalent to equality of the squares.
* `std::map` (ordered, `insert` does not overwrite, `rbegin` is the greatest
  key) is modelled as an association list sorted strictly ascending by key;
  keys are `ℕ` (the engine instantiates the id template with an enum).
* The debug (`_DEBUG`) build is modelled: missing-id lookups log a message to
  the `DebugLogger` and return early.  The release build performs the same
  lookups unchecked (undefined behaviour on a miss) and is not modelled.
* The external filesystem / audio decoder is a parameter `fsOk : String →
  Bool` saying whether opening a given path succeeds.
* The `DebugLogger` message buffer is carried inside each modelled object as
  a `log : List String` field; `cacheMessage` appends.
* `Math::pascalTriangle` computes in machine `int`: its model works over `ℤ`
  with every arithmetic result wrapped to 32 bits two's complement
  (`wrap32`) and truncating division (`Int.tdiv`); see its section comment.
-/

/-- `fmaxf(fminf(v, hi), lo)` as used throughout the source for clamping. -/
def clampQ (lo hi v : ℚ) : ℚ := max (min v hi) lo

/-- Square of the 2-argument hypotenuse, `hypot(a, b)^2 = a*a + b*b`;
the source computes `sqrtf(a*a + b*b)` and we track the square. -/
def hypotSq (a b : ℚ) : ℚ := a * a + b * b

/-- `ae::AudioProperties` (AudioProperties.h): volume, attenuation, pitch,
minimum 2D distance, derived minimum 3D distance (stored squared, see module
comment) and the listener-relative flag. -/
structure AudioProperties where
  volume : ℚ
  attenuation : ℚ
  pitch : ℚ
  minDistance2d : ℚ
  minDistance3dSq : ℚ
  relativeToListener : Bool
deriving Repr, DecidableEq

/-- `AudioProperties::setVolume` (AudioProperties.cpp line 78):
`volume_ = fmaxf(fminf(volume, 100.f), 0.f)`. -/
def AudioProperties.setVolume (v : ℚ) (p : AudioProperties) : AudioProperties :=
  { p with volume := clampQ 0 100 v }

/-- `AudioProperties::setAttenuation` (AudioProperties.h line 202):
`attenuation_ = fmaxf(attenuation, 0.f)`. -/
def AudioProperties.setAttenuation (a : ℚ) (p : AudioProperties) : AudioProperties :=
  { p with attenuation := max a 0 }

/-- `AudioProperties::setPitch` (AudioProperties.h line 215). -/
def AudioProperties.setPitch (x : ℚ) (p : AudioProperties) : AudioProperties :=
  { p with pitch := x }

/-- `AudioProperties::setRelativeToListener` (AudioProperties.h line 228). -/
def AudioProperties.setRelativeToListener (f : Bool) (p : AudioProperties) : AudioProperties :=
  { p with relativeToListener := f }

/-- `AudioProperties::setMinDistance2D` (AudioProperties.cpp lines 84–90):
clamps the 2D distance to at least 1 and recomputes the 3D distance from the
clamped value and the listener z position read at call time
(`sf::Listener::getPosition().z`, passed here as `listenerZ`). -/
def AudioProperties.setMinDistance2D (d listenerZ : ℚ) (p : AudioProperties) : AudioProperties :=
  let d2 := max d 1
  { p with minDistance2d := d2, minDistance3dSq := hypotSq d2 listenerZ }

/-- The `AudioProperties` constructor (AudioProperties.cpp lines 10–18):
initialises pitch and the relative flag directly, then runs `setVolume`,
`setAttenuation` and `setMinDistance2D`. -/
def AudioProperties.ctor (volume attenuation pitch minDistance2d : ℚ)
    (relativeToListener : Bool) (listenerZ : ℚ) : AudioProperties :=
  (({ volume := 0, attenuation := 0, pitch := pitch
    , minDistance2d := 0, minDistance3dSq := 0
    , relativeToListener := relativeToListener : AudioProperties
    }.setVolume volume).setAttenuation attenuation).setMinDistance2D minDistance2d listenerZ

/-- Default-constructed `AudioProperties()` (AudioProperties.h lines 74–75):
volume 100, attenuation 1, pitch 1, minDistance2d 1, not listener-relative. -/
def AudioProperties.default (listenerZ : ℚ) : AudioProperties :=
  AudioProperties.ctor 100 1 1 1 false listenerZ

/-! ## Ordered map (`std::map<ℕ, α>`)

Association list sorted strictly ascending by key.  `minsert` models
`std::map::insert` (no overwrite of an existing key), `merase` models erasure
by key, `mfind` models `find`, and `List.getLast?` models `rbegin` (the
greatest key, for lists built by `minsert`). -/

/-- `std::map::find` on the sorted association list (key equality test). -/
def mfind {α : Type} (k : ℕ) : List (ℕ × α) → Option α
  | [] => none
  | (k1, v) :: t => if k = k1 then some v else mfind k t

/-- `std::map::insert`: inserts at the sorted position; a pair whose key is
already present is NOT inserted (the map is unchanged). -/
def minsert {α : Type} (k : ℕ) (v : α) : List (ℕ × α) → List (ℕ × α)
  | [] => [(k, v)]
  | (k1, v1) :: t =>
    if k < k1 then (k, v) :: (k1, v1) :: t
    else if k = k1 then (k1, v1) :: t
    else (k1, v1) :: minsert k v t

/-- `std::map::erase(key)`: removes the entry with the given key, if any
(map keys are unique, so dropping every pair with the key is the same
operation). -/
def merase {α : Type} (k : ℕ) (l : List (ℕ × α)) : List (ℕ × α) :=
  l.filter fun kv => kv.1 != k

/-- In-place mutation of the mapped value at one key (a C++ write through an
iterator obtained from `find`; map keys are unique). -/
def mupdate {α : Type} (k : ℕ) (f : α → α) (l : List (ℕ × α)) : List (ℕ × α) :=
  l.map fun kv => if kv.1 = k then (kv.1, f kv.2) else kv

/-- In-place mutation of every mapped value (a C++ range-for writing through
the iterator); keys are untouched. -/
def mapVals {α : Type} (f : α → α) (l : List (ℕ × α)) : List (ℕ × α) :=
  l.map fun kv => (kv.1, f kv.2)

/-! ## `sf::Music` / playback state (external engine handle, as driven by
this repository) and `ae::MusicPlayer` (MusicPlayer.h / MusicPlayer.inl) -/

/-- `sf::SoundSource::Status`. -/
inductive Status where
  | Stopped
  | Paused
  | Playing
deriving Repr, DecidableEq

/-- The slice of an `sf::Music` handle that this repository reads or writes:
playback status, loop flag, source position, volume, and the spatialisation
parameters set from `AudioProperties`.  `openedFrom` records the path of a
successful `openFromFile`. -/
structure Music where
  status : Status
  loop : Bool
  pos : ℚ × ℚ × ℚ
  volume : ℚ
  attenuation : ℚ
  pitch : ℚ
  minDistanceSq : ℚ
  relative : Bool
  openedFrom : Option String
deriving Repr, DecidableEq

/-- A freshly constructed `sf::Music` (SFML defaults: stopped, no loop,
origin position, volume 100, attenuation 1, pitch 1, min distance 1, not
listener-relative, nothing opened). -/
def Music.fresh : Music :=
  { status := .Stopped, loop := false, pos := (0, 0, 0), volume := 100
  , attenuation := 1, pitch := 1, minDistanceSq := 1, relative := false
  , openedFrom := none }

/-- `MusicPlayer<T>::MusicTrack` (MusicPlayer.h): the music handle plus the
`VOLUME` constant recording the track's nominal volume at load time. -/
structure MusicTrack where
  music : Music
  VOLUME : ℚ
deriving Repr, DecidableEq

/-- `ae::MusicPlayer<T>` state: the `AudioPlayer` base's global volume, the
`tracks_` map, and the `DebugLogger` buffer the player appends to. -/
structure MusicPlayer where
  globalVolume : ℚ
  tracks : List (ℕ × MusicTrack)
  log : List String
deriving Repr, DecidableEq

/-- A newly constructed `MusicPlayer` (`AudioPlayer` ctor: global volume
100; the listener is set to `(0, 0, 300)`, tracked in `ListenerWorld`). -/
def MusicPlayer.init : MusicPlayer :=
  { globalVolume := 100, tracks := [], log := [] }

/-- `AudioPlayer<T>::setGlobalVolume` (AudioPlayer.inl lines 68–73):
`globalVolume_ = fmaxf(fminf(globalVolume, 100.f), 0.f)`. -/
def audioPlayerClampVolume (v : ℚ) : ℚ := clampQ 0 100 v

/-- `MusicPlayer<T>::play(position, id, loop)` (MusicPlayer.inl lines 58–75),
debug build: a missing id logs and returns; otherwise the track's music gets
the position (y negated, z 0), the loop flag, volume
`globalVolume * VOLUME / 100`, and starts playing. -/
def MusicPlayer.play (s : MusicPlayer) (position : ℚ × ℚ) (id : ℕ) (loop : Bool) :
    MusicPlayer :=
  match mfind id s.tracks with
  | none =>
    { s with log := s.log ++ ["ae::MusicPlayer<T>::play - Unable to find music track"] }
  | some _ =>
    { s with tracks := mupdate id (fun tr =>
        { tr with music :=
          { tr.music with
            pos := (position.1, -position.2, 0)
            loop := loop
            volume := s.globalVolume * tr.VOLUME / 100
            status := .Playing } }) s.tracks }

/-- `sf::Music::pause` as called by the player (only ever invoked on a
playing track): the status becomes `Paused`. -/
def Music.pauseHandle (m : Music) : Music := { m with status := .Paused }

/-- `sf::Music::play` as called from `pause(false)` (only ever invoked on a
paused track): playback resumes, the status becomes `Playing`. -/
def Music.resumeHandle (m : Music) : Music := { m with status := .Playing }

/-- `MusicPlayer<T>::pause(flag)` (MusicPlayer.inl lines 91–104): with
`flag = true` pauses each track whose status is `Playing`; with
`flag = false` calls `play()` on each track whose status is `Paused`;
all other tracks are not touched. -/
def MusicPlayer.pauseAll (s : MusicPlayer) (flag : Bool) : MusicPlayer :=
  if flag then
    { s with tracks := mapVals (fun tr =>
        if tr.music.status = .Playing then { tr with music := tr.music.pauseHandle }
        else tr) s.tracks }
  else
    { s with tracks := mapVals (fun tr =>
        if tr.music.status = .Paused then { tr with music := tr.music.resumeHandle }
        else tr) s.tracks }

/-- `MusicPlayer<T>::pause(id, flag)` (MusicPlayer.inl lines 121–138), debug
build: missing id logs and returns; otherwise pauses if `flag` and the track
is playing, resumes if `!flag` and the track is paused, else does nothing. -/
def MusicPlayer.pauseOne (s : MusicPlayer) (id : ℕ) (flag : Bool) : MusicPlayer :=
  match mfind id s.tracks with
  | none =>
    { s with log := s.log ++ ["ae::MusicPlayer<T>::pause - Unable to find music track"] }
  | some _ =>
    { s with tracks := mupdate id (fun tr =>
        if flag ∧ tr.music.status = .Playing then { tr with music := tr.music.pauseHandle }
        else if ¬flag ∧ tr.music.status = .Paused then { tr with music := tr.music.resumeHandle }
        else tr) s.tracks }

/-- `MusicPlayer<T>::setGlobalVolume` (MusicPlayer.inl lines 250–258): clamps
via the `AudioPlayer` base, then sets every track's music volume to
`GLOBAL_VOLUME * VOLUME / 100`. -/
def MusicPlayer.setGlobalVolume (s : MusicPlayer) (v : ℚ) : MusicPlayer :=
  let g := audioPlayerClampVolume v
  { s with
    globalVolume := g
    tracks := mapVals (fun tr =>
      { tr with music := { tr.music with volume := g * tr.VOLUME / 100 } }) s.tracks }

/-- `MusicPlayer<T>::setupTrack` (MusicPlayer.inl lines 351–368): takes the
track at `tracks_.rbegin()` — the entry with the GREATEST key, intended to be
the newly inserted one — opens the file on its music handle and applies the
properties; on open failure, logs and erases `tracks_.rbegin()->first`, again
the greatest key. -/
def MusicPlayer.setupTrack (s : MusicPlayer) (fsOk : String → Bool)
    (properties : AudioProperties) (filepath : String) : MusicPlayer :=
  match s.tracks.getLast? with
  | none => s
  | some (k, _) =>
    if fsOk filepath then
      { s with tracks := mupdate k (fun tr =>
          { tr with music :=
            { tr.music with
              openedFrom := some filepath
              attenuation := properties.attenuation
              pitch := properties.pitch
              minDistanceSq := properties.minDistance3dSq
              relative := properties.relativeToListener } }) s.tracks }
    else
      { s with
        log := s.log ++ ["ae::MusicPlayer<T>::loadTrack - Failed to open file"]
        tracks := merase k s.tracks }

/-- `MusicPlayer<T>::load(filepath, id)` (MusicPlayer.inl lines 276–289):
if the id is not yet loaded, inserts a `MusicTrack` carrying the default
properties' volume and runs `setupTrack` with default properties (whose 3D
distance reads the current listener z); otherwise logs (debug build). -/
def MusicPlayer.load (s : MusicPlayer) (fsOk : String → Bool) (listenerZ : ℚ)
    (filepath : String) (id : ℕ) : MusicPlayer :=
  match mfind id s.tracks with
  | none =>
    let properties := AudioProperties.default listenerZ
    let s1 := { s with tracks := minsert id ⟨Music.fresh, properties.volume⟩ s.tracks }
    s1.setupTrack fsOk properties filepath
  | some _ =>
    { s with log := s.log ++
        ["ae::MusicPlayer<T>::load - Attempt to load in music track that is already loaded in"] }

/-- `MusicPlayer<T>::load(filepath, properties, id)` (MusicPlayer.inl lines
306–318): the explicit-properties overload; same structure as `load`. -/
def MusicPlayer.loadWith (s : MusicPlayer) (fsOk : String → Bool)
    (properties : AudioProperties) (filepath : String) (id : ℕ) : MusicPlayer :=
  match mfind id s.tracks with
  | none =>
    let s1 := { s with tracks := minsert id ⟨Music.fresh, properties.volume⟩ s.tracks }
    s1.setupTrack fsOk properties filepath
  | some _ =>
    { s with log := s.log ++
        ["ae::MusicPlayer<T>::load - Attempt to load in music track that is already loaded in"] }

/-- `MusicPlayer<T>::unload(id)` (MusicPlayer.inl lines 333–346), debug
build: missing id logs and returns; otherwise the entry is erased. -/
def MusicPlayer.unload (s : MusicPlayer) (id : ℕ) : MusicPlayer :=
  match mfind id s.tracks with
  | none =>
    { s with log := s.log ++
        ["ae::MusicPlayer<T>::unload - The ID provided is not associated with any music track"] }
  | some _ => { s with tracks := merase id s.tracks }

/-! ## `ae::ResourceHolder<ID, Res>` (ResourceHolder.h / ResourceHolder.inl)

The resource is identified by the file it was loaded from (the holder owns
engine objects whose contents no claim inspects). -/

/-- `ae::ResourceHolder` state: the `resourceMap_` plus the debug log. -/
structure ResourceHolder where
  resourceMap : List (ℕ × String)
  log : List String
deriving Repr, DecidableEq

/-- An empty holder. -/
def ResourceHolder.init : ResourceHolder := { resourceMap := [], log := [] }

/-- `ResourceHolder<ID, Res>::load(filepath, id)` (ResourceHolder.inl lines
33–45): constructs a resource and calls `loadFromFile`; on success inserts it
(`std::map::insert`, no overwrite of an existing id); on failure stores
nothing and, in the debug build, appends a diagnostic. -/
def ResourceHolder.load (h : ResourceHolder) (fsOk : String → Bool)
    (filepath : String) (id : ℕ) : ResourceHolder :=
  if fsOk filepath then
    { h with resourceMap := minsert id filepath h.resourceMap }
  else
    { h with log := h.log ++ ["ae::ResourceHolder::load - Failed to load file"] }

/-- `ResourceHolder<ID, Res>::unload(id)` (ResourceHolder.inl lines 119–132),
debug build: missing id logs and returns; otherwise erases the entry. -/
def ResourceHolder.unload (h : ResourceHolder) (id : ℕ) : ResourceHolder :=
  match mfind id h.resourceMap with
  | none => { h with log := h.log ++ ["ae::ResourceHolder::unload - Unable to find resource"] }
  | some _ => { h with resourceMap := merase id h.resourceMap }

/-- `ResourceHolder<ID, Res>::get(id)` (ResourceHolder.inl lines 144–157),
debug build: returns the stored resource, or `none` (a null pointer, after
logging) when the id is absent. -/
def ResourceHolder.get (h : ResourceHolder) (id : ℕ) : Option String :=
  mfind id h.resourceMap

/-! ## `ae::SoundPlayer<T>` (SoundPlayer.h / SoundPlayer.inl) -/

/-- The slice of an `sf::Sound` handle that this repository reads or
writes. -/
structure Sound where
  status : Status
  pos : ℚ × ℚ × ℚ
  volume : ℚ
  attenuation : ℚ
  pitch : ℚ
  minDistanceSq : ℚ
  relative : Bool
deriving Repr, DecidableEq

/-- `SoundPlayer<T>::SoundEffect` (SoundPlayer.h): a sound handle bound to
the buffer of `id`, plus that id. -/
structure SoundEffect where
  sound : Sound
  id : ℕ
deriving Repr, DecidableEq

/-- `ae::SoundPlayer<T>` state: the `AudioPlayer` base's global volume, the
`soundProperties_` map, the `soundBuffers_` resource holder, the `sounds_`
list of active effects (in creation order; `emplace_back` appends), and the
debug log. -/
structure SoundPlayer where
  globalVolume : ℚ
  soundProperties : List (ℕ × AudioProperties)
  soundBuffers : ResourceHolder
  sounds : List SoundEffect
  log : List String
deriving Repr, DecidableEq

/-- A newly constructed `SoundPlayer` (global volume 100, empty maps). -/
def SoundPlayer.init : SoundPlayer :=
  { globalVolume := 100, soundProperties := [], soundBuffers := .init
  , sounds := [], log := [] }

/-- `SoundPlayer<T>::removeStoppedSounds` (SoundPlayer.inl lines 239–243):
`sounds_.remove_if(status == Stopped)`. -/
def SoundPlayer.removeStoppedSounds (s : SoundPlayer) : SoundPlayer :=
  { s with sounds := s.sounds.filter fun e => e.sound.status != .Stopped }

/-- `SoundPlayer<T>::play(position, id)` (SoundPlayer.inl lines 56–82), debug
build: prunes stopped sounds, then — missing id logs and returns — otherwise
appends a new effect bound to the id's buffer, with the position (y negated),
volume `globalVolume * properties.volume / 100`, the properties' attenuation,
pitch, 3D min distance and relative flag, and starts it. -/
def SoundPlayer.play (s : SoundPlayer) (position : ℚ × ℚ) (id : ℕ) : SoundPlayer :=
  let s1 := s.removeStoppedSounds
  match mfind id s1.soundProperties with
  | none =>
    { s1 with log := s1.log ++ ["ae::SoundPlayer<T>::play - Unable to find sound effect"] }
  | some props =>
    { s1 with sounds := s1.sounds ++
        [{ id := id
         , sound :=
           { status := .Playing
           , pos := (position.1, -position.2, 0)
           , volume := s1.globalVolume * props.volume / 100
           , attenuation := props.attenuation
           , pitch := props.pitch
           , minDistanceSq := props.minDistance3dSq
           , relative := props.relativeToListener } }] }

/-- The re-scaling loop of `SoundPlayer<T>::setGlobalVolume` (SoundPlayer.inl
lines 144–156), debug build: walks the active effects in order, setting each
volume to `g * properties(id).volume / 100`; the first effect whose id has no
properties entry aborts the whole loop (log and `return`), leaving it and
every later effect untouched.  Returns the updated list and whether the loop
aborted. -/
def rescaleSounds (g : ℚ) (props : List (ℕ × AudioProperties)) :
    List SoundEffect → List SoundEffect × Bool
  | [] => ([], false)
  | e :: t =>
    match mfind e.id props with
    | none => (e :: t, true)
    | some p =>
      let r := rescaleSounds g props t
      ({ e with sound := { e.sound with volume := g * p.volume / 100 } } :: r.1, r.2)

/-- `SoundPlayer<T>::setGlobalVolume` (SoundPlayer.inl lines 139–157): clamps
via the `AudioPlayer` base, then runs the re-scaling loop. -/
def SoundPlayer.setGlobalVolume (s : SoundPlayer) (v : ℚ) : SoundPlayer :=
  let g := audioPlayerClampVolume v
  let r := rescaleSounds g s.soundProperties s.sounds
  { s with
    globalVolume := g
    sounds := r.1
    log := s.log ++
      if r.2 then ["ae::SoundPlayer<T>::setGlobalVolume - Unable to find a sound effect"] else [] }

/-- `SoundPlayer<T>::load(filepath, id)` (SoundPlayer.inl lines 175–180):
loads the buffer into the holder and inserts default properties
(`std::map::insert`: an existing id keeps its old properties). -/
def SoundPlayer.load (s : SoundPlayer) (fsOk : String → Bool) (listenerZ : ℚ)
    (filepath : String) (id : ℕ) : SoundPlayer :=
  { s with
    soundBuffers := s.soundBuffers.load fsOk filepath id
    soundProperties := minsert id (AudioProperties.default listenerZ) s.soundProperties }

/-- `SoundPlayer<T>::load(filepath, properties, id)` (SoundPlayer.inl lines
197–202): the explicit-properties overload; same structure. -/
def SoundPlayer.loadWith (s : SoundPlayer) (fsOk : String → Bool)
    (properties : AudioProperties) (filepath : String) (id : ℕ) : SoundPlayer :=
  { s with
    soundBuffers := s.soundBuffers.load fsOk filepath id
    soundProperties := minsert id properties s.soundProperties }

/-- `SoundPlayer<T>::unload(id)` (SoundPlayer.inl lines 217–232), debug
build: a missing properties id logs and returns; otherwise erases the
properties entry, removes every active effect whose id matches
(`sounds_.remove_if`), and unloads the id's buffer. -/
def SoundPlayer.unload (s : SoundPlayer) (id : ℕ) : SoundPlayer :=
  match mfind id s.soundProperties with
  | none =>
    { s with log := s.log ++
        ["ae::SoundPlayer<T>::unload - The ID provided is not associated with any sound effect"] }
  | some _ =>
    let s1 := { s with soundProperties := merase id s.soundProperties }
    let s2 := { s1 with sounds := s1.sounds.filter fun e => e.id != id }
    { s2 with soundBuffers := s2.soundBuffers.unload id }

/-! ## Listener / `AudioProperties` interaction world (for the derived
3D-distance invariant)

`sf::Listener` is process-wide state; `AudioProperties::setMinDistance2D`
reads its z coordinate at call time.  `ListenerWorld` tracks the listener,
one `AudioProperties` object, and — as specification ghost state — `lastZ`,
the listener depth read at the most recent `setMinDistance2D` (every
constructor runs `setMinDistance2D`). -/

structure ListenerWorld where
  listener : ℚ × ℚ × ℚ
  props : AudioProperties
  lastZ : ℚ
deriving Repr, DecidableEq

/-- The operations of this repository that touch the listener or the
properties object after the object is constructed. -/
inductive PEvent where
  /-- `AudioProperties::setMinDistance2D` (reads the current listener z). -/
  | setMinDistance2D (d : ℚ)
  /-- `AudioProperties::setVolume`. -/
  | setVolume (v : ℚ)
  /-- `AudioProperties::setAttenuation`. -/
  | setAttenuation (a : ℚ)
  /-- `AudioProperties::setPitch`. -/
  | setPitch (x : ℚ)
  /-- `AudioProperties::setRelativeToListener`. -/
  | setRelativeToListener (f : Bool)
  /-- The `AudioPlayer` constructor (AudioPlayer.inl line 85):
  `sf::Listener::setPosition(0, 0, 300)` — changes the listener depth. -/
  | audioPlayerInit
  /-- `AudioPlayer<T>::setListenerPosition` (AudioPlayer.inl lines 36–40):
  sets x and −y, keeps the current z. -/
  | setListenerPosition (x y : ℚ)
deriving Repr, DecidableEq

/-- One step of the world. -/
def pstep (w : ListenerWorld) : PEvent → ListenerWorld
  | .setMinDistance2D d =>
    { w with props := w.props.setMinDistance2D d w.listener.2.2
           , lastZ := w.listener.2.2 }
  | .setVolume v => { w with props := w.props.setVolume v }
  | .setAttenuation a => { w with props := w.props.setAttenuation a }
  | .setPitch x => { w with props := w.props.setPitch x }
  | .setRelativeToListener f => { w with props := w.props.setRelativeToListener f }
  | .audioPlayerInit => { w with listener := (0, 0, 300) }
  | .setListenerPosition x y => { w with listener := (x, -y, w.listener.2.2) }

/-- World obtained by constructing the `AudioProperties` object with the
given arguments while the listener is at `l0`. -/
def pinit (volume attenuation pitch minDistance2d : ℚ) (rel : Bool)
    (l0 : ℚ × ℚ × ℚ) : ListenerWorld :=
  { listener := l0
  , props := AudioProperties.ctor volume attenuation pitch minDistance2d rel l0.2.2
  , lastZ := l0.2.2 }

/-- Run a sequence of operations. -/
def prun (w : ListenerWorld) (es : List PEvent) : ListenerWorld := es.foldl pstep w

/-! ## `Math::pascalTriangle` (Math.cpp lines 41–52)

The source computes in machine `int` (32-bit, two's complement).  Signed
overflow is undefined behaviour in C++; the model commits to the wraparound
semantics of the common implementations, under which the overflow is
observable as a wrong (negative) entry.  Each arithmetic result of the
recurrence is therefore reduced by `wrap32`; the quotient of the division is
not wrapped because its magnitude never exceeds the numerator's and the one
overflowing case `INT_MIN / -1` cannot arise (the divisor `i` is at least
1).  C++ `/` on `int` truncates toward zero, which is `Int.tdiv`.

`pascalTriangleExact` is the exact-arithmetic idealisation of the same two
loops over `ℕ` — the value the recurrence denotes when no intermediate
overflows.  It is a specification-side device (and an efficient way to
compute binomial coefficients in proofs), not the model of the source. -/

/-- Two's-complement wraparound of a 32-bit signed `int`: the representative
of `x` modulo `2^32` lying in `[-2^31, 2^31)`. -/
def wrap32 (x : ℤ) : ℤ := (x + 2 ^ 31) % 2 ^ 32 - 2 ^ 31

/-- `Math::pascalTriangle(n)` over machine ints:
`vector<int> row(n + 1)` zero-initialised, `row[0] = 1`; first loop
`for (i = 1; i < n/2 + 1; ++i)` `row[i] = row[i-1] * (n - i + 1) / i`, every
intermediate `int` result wrapped to 32 bits and the division truncating
toward zero; second loop `for (i = n/2 + 1; i <= n; ++i)` `row[i] = row[n-i]`
(a plain copy, no arithmetic on the values). -/
def pascalTriangle (n : ℕ) : List ℤ :=
  let row0 := (List.replicate (n + 1) (0 : ℤ)).set 0 1
  let row1 := (List.range' 1 (n / 2)).foldl
    (fun r i => r.set i
      ((wrap32 (r.getD (i - 1) 0 *
        wrap32 (wrap32 ((n : ℤ) - (i : ℤ)) + 1))).tdiv (i : ℤ))) row0
  (List.range' (n / 2 + 1) (n - n / 2)).foldl
    (fun r i => r.set i (r.getD (n - i) 0)) row1

/-- The exact-arithmetic idealisation of `Math::pascalTriangle(n)` (see the
section comment): the same two loops over unbounded `ℕ`. -/
def pascalTriangleExact (n : ℕ) : List ℕ :=
  let row0 := (List.replicate (n + 1) 0).set 0 1
  let row1 := (List.range' 1 (n / 2)).foldl
    (fun r i => r.set i (r.getD (i - 1) 0 * (n - i + 1) / i)) row0
  (List.range' (n / 2 + 1) (n - n / 2)).foldl
    (fun r i => r.set i (r.getD (n - i) 0)) row1

/-! ## Support definitions for concrete scenarios and invariants -/

/-- A filesystem on which every open succeeds. -/
def fsAll : String → Bool := fun _ => true

/-- A filesystem on which every open fails. -/
def fsNone : String → Bool := fun _ => false

/-- Keys of the association list are strictly increasing — the `std::map`
representation invariant (holds for every map built by `minsert` from
empty). -/
def SortedKeys {α : Type} (l : List (ℕ × α)) : Prop :=
  l.Pairwise fun a b => a.1 < b.1

/-- Invariant of the `pascalTriangleExact` row buffer: after the writes up to
index `m` the buffer has length `n + 1`, holds `C(n, j)` at every `j ≤ m`,
and still holds the initial 0 everywhere beyond. -/
def rowInv (n m : ℕ) (r : List ℕ) : Prop :=
  r.length = n + 1 ∧ ∀ j : ℕ, r.getD j 0 = if j ≤ m then n.choose j else 0

/-- Pre-state of the load-failure rollback scenario: a `MusicPlayer` that
already holds a successfully loaded track under id 2. -/
def rollbackPre : MusicPlayer := MusicPlayer.init.load fsAll 300 "two.ogg" 2

/-- Post-state: on `rollbackPre`, `load` of the fresh id 1 from a path whose
open fails. -/
def rollbackPost : MusicPlayer := rollbackPre.load fsNone 300 "bad.ogg" 1

/-- An `AudioProperties` value constructed with nominal volume 40 (listener
at depth 300). -/
def propsForty : AudioProperties := AudioProperties.ctor 40 1 1 1 false 300

/-- A `MusicPlayer` with global volume 50 holding one track of nominal
volume 40 under id 1. -/
def musicDemo : MusicPlayer :=
  { globalVolume := 50, tracks := [(1, ⟨Music.fresh, 40⟩)], log := [] }

/-- A `MusicPlayer` holding a playing track (id 1) and a paused track
(id 2). -/
def pauseDemo : MusicPlayer :=
  { globalVolume := 100
  , tracks := [(1, ⟨{ Music.fresh with status := .Playing }, 100⟩),
               (2, ⟨{ Music.fresh with status := .Paused }, 100⟩)]
  , log := [] }

/-- A `SoundPlayer` with global volume 50 and id 2 loaded with
`propsForty`. -/
def soundDemo : SoundPlayer :=
  { globalVolume := 50, soundProperties := [(2, propsForty)]
  , soundBuffers := ⟨[(2, "b.wav")], []⟩, sounds := [], log := [] }

/-- `soundDemo` with one playing instance of id 2 active. -/
def soundDemoActive : SoundPlayer :=
  { soundDemo with sounds := [⟨⟨.Playing, (0, 0, 0), 20, 1, 1, 90001, false⟩, 2⟩] }

/-! ## Map lemmas -/

theorem mfind_minsert_self {α : Type} (k : ℕ) (v : α) (l : List (ℕ × α))
    (h : mfind k l = none) : mfind k (minsert k v l) = some v := by
  induction l with
  | nil => simp [minsert, mfind]
  | cons hd t ih =>
    obtain ⟨k1, v1⟩ := hd
    by_cases hk : k = k1
    · simp [mfind, hk] at h
    · simp only [minsert]
      rcases Nat.lt_trichotomy k k1 with hlt | heq | hgt
      · simp [hlt, mfind]
      · exact absurd heq hk
      · simp only [mfind, if_neg hk] at h
        simp [Nat.not_lt_of_gt hgt, hk, mfind, ih h]

theorem mfind_minsert_ne {α : Type} (k j : ℕ) (v : α) (l : List (ℕ × α))
    (hne : j ≠ k) : mfind j (minsert k v l) = mfind j l := by
  induction l with
  | nil => simp [minsert, mfind, hne]
  | cons hd t ih =>
    obtain ⟨k1, v1⟩ := hd
    simp only [minsert]
    rcases Nat.lt_trichotomy k k1 with hlt | heq | hgt
    · simp [hlt, mfind, hne]
    · simp [heq]
    · rw [if_neg (Nat.lt_asymm hgt), if_neg hgt.ne.symm]
      by_cases hj : j = k1
      · simp [mfind, hj]
      · simp [mfind, hj, ih]

theorem mfind_merase_self {α : Type} (k : ℕ) (l : List (ℕ × α)) :
    mfind k (merase k l) = none := by
  induction l with
  | nil => simp [merase, mfind]
  | cons hd t ih =>
    obtain ⟨k1, v1⟩ := hd
    by_cases hk : k1 = k
    · simpa [merase, hk] using ih
    · simpa [merase, hk, mfind, Ne.symm hk] using ih

theorem mfind_merase_ne {α : Type} (k j : ℕ) (l : List (ℕ × α)) (hne : j ≠ k) :
    mfind j (merase k l) = mfind j l := by
  induction l with
  | nil => simp [merase, mfind]
  | cons hd t ih =>
    obtain ⟨k1, v1⟩ := hd
    by_cases hk : k1 = k
    · subst hk
      simpa [merase, mfind, hne] using ih
    · by_cases hj : j = k1
      · simp [merase, hk, mfind, hj]
      · simpa [merase, hk, mfind, hj] using ih

theorem mfind_mupdate_self {α : Type} (k : ℕ) (f : α → α) (l : List (ℕ × α)) :
    mfind k (mupdate k f l) = (mfind k l).map f := by
  induction l with
  | nil => simp [mupdate, mfind]
  | cons hd t ih =>
    obtain ⟨k1, v1⟩ := hd
    simp only [mupdate, List.map_cons]
    by_cases hk : k1 = k
    · rw [if_pos hk]
      simp [mfind, hk.symm]
    · rw [if_neg hk]
      simp only [mfind, if_neg (Ne.symm hk)]
      simpa [mupdate] using ih

theorem mfind_mupdate_ne {α : Type} (k j : ℕ) (f : α → α) (l : List (ℕ × α))
    (hne : j ≠ k) : mfind j (mupdate k f l) = mfind j l := by
  induction l with
  | nil => simp [mupdate, mfind]
  | cons hd t ih =>
    obtain ⟨k1, v1⟩ := hd
    simp only [mupdate, List.map_cons]
    by_cases hk : k1 = k
    · rw [if_pos hk]
      simp only [mfind, if_neg (hk ▸ hne)]
      simpa [mupdate] using ih
    · rw [if_neg hk]
      by_cases hj : j = k1
      · simp [mfind, hj]
      · simp only [mfind, if_neg hj]
        simpa [mupdate] using ih

theorem mfind_mapVals {α : Type} (k : ℕ) (f : α → α) (l : List (ℕ × α)) :
    mfind k (mapVals f l) = (mfind k l).map f := by
  induction l with
  | nil => simp [mapVals, mfind]
  | cons hd t ih =>
    obtain ⟨k1, v1⟩ := hd
    by_cases hk : k = k1
    · simp [mapVals, mfind, hk]
    · simpa [mapVals, mfind, hk] using ih

theorem mfind_none_of_forall_gt {α : Type} (k : ℕ) (l : List (ℕ × α))
    (h : ∀ kv ∈ l, k < kv.1) : mfind k l = none := by
  induction l with
  | nil => rfl
  | cons hd t ih =>
    have hk : k ≠ hd.1 := Nat.ne_of_lt (h hd (List.mem_cons_self hd t))
    obtain ⟨k1, v1⟩ := hd
    simp only [mfind, if_neg hk]
    exact ih fun kv hm => h kv (List.mem_cons_of_mem _ hm)

theorem minsert_of_mfind_some {α : Type} (k : ℕ) (w : α) (l : List (ℕ × α))
    (hs : SortedKeys l) {v : α} (h : mfind k l = some v) : minsert k w l = l := by
  induction l with
  | nil => simp [mfind] at h
  | cons hd t ih =>
    obtain ⟨k1, v1⟩ := hd
    rw [SortedKeys, List.pairwise_cons] at hs
    by_cases hk : k = k1
    · subst hk
      simp [minsert]
    · simp only [mfind, if_neg hk] at h
      rcases Nat.lt_trichotomy k k1 with hlt | heq | hgt
      · have : mfind k t = none :=
          mfind_none_of_forall_gt k t fun kv hm => Nat.lt_trans hlt (hs.1 kv hm)
        rw [this] at h
        exact absurd h (by simp)
      · exact absurd heq hk
      · simp only [minsert, if_neg (Nat.lt_asymm hgt), if_neg hk]
        rw [ih hs.2 h]

/-! ## Claim C5 — property clamping -/

/-- Claim C5: every input to the `AudioProperties` constructor or setters is
silently clamped — the stored volume is `clamp(v, 0, 100)` and the stored
attenuation is `max(a, 0)`; the operations are total, so nothing is rejected
and no error is signalled. -/
theorem audioProperties_clamping (v a p d : ℚ) (r : Bool) (z v2 a2 : ℚ)
    (q : AudioProperties) :
    (AudioProperties.ctor v a p d r z).volume = max (min v 100) 0 ∧
    (AudioProperties.ctor v a p d r z).attenuation = max a 0 ∧
    (q.setVolume v2).volume = max (min v2 100) 0 ∧
    (q.setAttenuation a2).attenuation = max a2 0 := by
  refine ⟨?_, ?_, ?_, ?_⟩ <;>
    simp [AudioProperties.ctor, AudioProperties.setVolume,
      AudioProperties.setAttenuation, AudioProperties.setMinDistance2D, clampQ]

/-! ## Claim C3 — derived 3D minimum distance -/

/-- Claim C3, counterexample: the stored 3D distance is NOT recomputed when
the listener's depth changes.  Construct an `AudioProperties` while the
listener is at `(0, 0, 0)` (so minDistance3D = hypot(1, 0) = 1), then run an
`AudioPlayer` constructor, which moves the listener to depth 300; the stored
square stays 1 while `hypot(minDistance2D, currentZ)²` is 90001. -/
theorem minDistance3d_stale_after_listener_move :
    (prun (pinit 100 1 1 1 false (0, 0, 0)) [PEvent.audioPlayerInit]).props.minDistance3dSq ≠
      hypotSq (prun (pinit 100 1 1 1 false (0, 0, 0))
          [PEvent.audioPlayerInit]).props.minDistance2d
        (prun (pinit 100 1 1 1 false (0, 0, 0)) [PEvent.audioPlayerInit]).listener.2.2 := by
  simp only [prun, pinit, pstep, List.foldl, AudioProperties.ctor,
    AudioProperties.setVolume, AudioProperties.setAttenuation,
    AudioProperties.setMinDistance2D, hypotSq, clampQ]
  norm_num

theorem pstep_keeps_minDistance3d (w : ListenerWorld) (e : PEvent)
    (h : w.props.minDistance3dSq = hypotSq w.props.minDistance2d w.lastZ) :
    (pstep w e).props.minDistance3dSq =
      hypotSq (pstep w e).props.minDistance2d (pstep w e).lastZ := by
  cases e <;>
    simp [pstep, AudioProperties.setMinDistance2D, AudioProperties.setVolume,
      AudioProperties.setAttenuation, AudioProperties.setPitch,
      AudioProperties.setRelativeToListener, h]

theorem prun_keeps_minDistance3d :
    ∀ (es : List PEvent) (w : ListenerWorld),
      w.props.minDistance3dSq = hypotSq w.props.minDistance2d w.lastZ →
      (prun w es).props.minDistance3dSq =
        hypotSq (prun w es).props.minDistance2d (prun w es).lastZ := by
  intro es
  induction es with
  | nil => intro w h; exact h
  | cons e t ih =>
    intro w h
    exact ih (pstep w e) (pstep_keeps_minDistance3d w e h)

/-- Claim C3, amended: after construction and any sequence of operations,
`getMinDistance3D` equals `hypot(getMinDistance2D(), z₀)` where `z₀` is the
listener depth read at the MOST RECENT `setMinDistance2D` (or at
construction) — the stored value is recomputed whenever `minDistance2D`
changes, but not when the listener's depth changes. -/
theorem minDistance3d_tracks_last_recompute (v a p d : ℚ) (r : Bool)
    (l0 : ℚ × ℚ × ℚ) (es : List PEvent) :
    (prun (pinit v a p d r l0) es).props.minDistance3dSq =
      hypotSq (prun (pinit v a p d r l0) es).props.minDistance2d
        (prun (pinit v a p d r l0) es).lastZ := by
  apply prun_keeps_minDistance3d
  simp [pinit, AudioProperties.ctor, AudioProperties.setVolume,
    AudioProperties.setAttenuation, AudioProperties.setMinDistance2D]

/-! ## Claim C8 — resource load failure stores nothing -/

/-- Claim C8: when opening the file fails, `ResourceHolder::load` stores
nothing — the resource map is exactly its pre-call state — and a diagnostic
is appended to the debug log. -/
theorem resourceHolder_load_failure (h : ResourceHolder) (fsOk : String → Bool)
    (filepath : String) (id : ℕ) (hfail : fsOk filepath = false) :
    (h.load fsOk filepath id).resourceMap = h.resourceMap ∧
    (h.load fsOk filepath id).log =
      h.log ++ ["ae::ResourceHolder::load - Failed to load file"] := by
  simp [ResourceHolder.load, hfail]

/-- Witness for C8 at a concrete holder and failing filesystem. -/
theorem resourceHolder_load_failure_witness :
    (ResourceHolder.init.load fsNone "missing.png" 3).resourceMap = [] ∧
    (ResourceHolder.init.load fsNone "missing.png" 3).log =
      ["ae::ResourceHolder::load - Failed to load file"] := by
  have h := resourceHolder_load_failure ResourceHolder.init fsNone "missing.png" 3 rfl
  simpa [ResourceHolder.init] using h

/-! ## Claim C4 — loading an already-loaded music id is a no-op -/

/-- Claim C4: a second `MusicPlayer::load` (either overload) of an id that
is already loaded neither replaces nor duplicates the first track: the
tracks collection is unchanged, and a message is logged. -/
theorem musicPlayer_load_idempotent (s : MusicPlayer) (fsOk : String → Bool)
    (listenerZ : ℚ) (filepath filepath2 : String) (props : AudioProperties)
    (id : ℕ) (tr : MusicTrack) (h : mfind id s.tracks = some tr) :
    (s.load fsOk listenerZ filepath id).tracks = s.tracks ∧
    (s.load fsOk listenerZ filepath id).log = s.log ++
      ["ae::MusicPlayer<T>::load - Attempt to load in music track that is already loaded in"] ∧
    (s.loadWith fsOk props filepath2 id).tracks = s.tracks ∧
    (s.loadWith fsOk props filepath2 id).log = s.log ++
      ["ae::MusicPlayer<T>::load - Attempt to load in music track that is already loaded in"] := by
  refine ⟨?_, ?_, ?_, ?_⟩ <;> simp [MusicPlayer.load, MusicPlayer.loadWith, h]

/-- Witness for C4: reloading id 2 of `rollbackPre` (which holds a track
under id 2) changes nothing but the log. -/
theorem musicPlayer_load_idempotent_witness :
    (rollbackPre.load fsAll 300 "again.ogg" 2).tracks = rollbackPre.tracks ∧
    (rollbackPre.loadWith fsAll propsForty "again.ogg" 2).tracks = rollbackPre.tracks := by
  cases htr : mfind 2 rollbackPre.tracks with
  | none => exact absurd htr (by decide)
  | some tr =>
    have h := musicPlayer_load_idempotent rollbackPre fsAll 300 "again.ogg" "again.ogg"
      propsForty 2 tr htr
    exact ⟨h.1, h.2.2.1⟩

/-! ## Claim C2 — rollback on music open failure (code bug)

`MusicPlayer<T>::setupTrack` addresses "the newly inserted music track"
through `tracks_.rbegin()`, i.e. the entry with the GREATEST key of the
`std::map`.  When the id being loaded is not the greatest key, the open is
attempted on the wrong track and, on failure, the wrong entry is erased:
the previously loaded greatest-key track is destroyed and the new
(never-opened) entry survives. -/

/-- Claim C2, evaluation at the failing input: `rollbackPre` holds a track
under id 2; loading id 1 from an unopenable path erases the id 2 entry and
leaves the id 1 entry in the map — the opposite of the claimed rollback. -/
theorem musicPlayer_failed_load_erases_wrong_track :
    mfind 2 rollbackPre.tracks ≠ none ∧
    mfind 1 rollbackPre.tracks = none ∧
    mfind 1 rollbackPost.tracks ≠ none ∧
    mfind 2 rollbackPost.tracks = none := by
  refine ⟨?_, ?_, ?_, ?_⟩ <;> decide

/-! ## Claim C6 — pause / resume touches exactly the right tracks -/

/-- Claim C6: `pause(true)` (all-tracks) pauses exactly the tracks whose
status is `Playing`, `pause(false)` resumes exactly the tracks whose status
is `Paused`, and a track in any other state is left untouched; the
single-track overload `pause(id, flag)` obeys the same rule for that track
and leaves every other track untouched. -/
theorem musicPlayer_pause_exact (s : MusicPlayer) (k : ℕ) (tr : MusicTrack)
    (h : mfind k s.tracks = some tr) :
    (tr.music.status = .Playing →
      mfind k (s.pauseAll true).tracks =
        some { tr with music := { tr.music with status := .Paused } } ∧
      mfind k (s.pauseOne k true).tracks =
        some { tr with music := { tr.music with status := .Paused } }) ∧
    (tr.music.status ≠ .Playing →
      mfind k (s.pauseAll true).tracks = some tr ∧
      mfind k (s.pauseOne k true).tracks = some tr) ∧
    (tr.music.status = .Paused →
      mfind k (s.pauseAll false).tracks =
        some { tr with music := { tr.music with status := .Playing } } ∧
      mfind k (s.pauseOne k false).tracks =
        some { tr with music := { tr.music with status := .Playing } }) ∧
    (tr.music.status ≠ .Paused →
      mfind k (s.pauseAll false).tracks = some tr ∧
      mfind k (s.pauseOne k false).tracks = some tr) ∧
    (∀ j, j ≠ k → ∀ flag, mfind j (s.pauseOne k flag).tracks = mfind j s.tracks) := by
  refine ⟨fun hst => ⟨?_, ?_⟩, fun hst => ⟨?_, ?_⟩, fun hst => ⟨?_, ?_⟩,
    fun hst => ⟨?_, ?_⟩, fun j hj flag => ?_⟩
  · simp [MusicPlayer.pauseAll, mfind_mapVals, h, hst, Music.pauseHandle]
  · simp [MusicPlayer.pauseOne, h, mfind_mupdate_self, hst, Music.pauseHandle]
  · simp [MusicPlayer.pauseAll, mfind_mapVals, h, hst]
  · simp [MusicPlayer.pauseOne, h, mfind_mupdate_self, hst]
  · simp [MusicPlayer.pauseAll, mfind_mapVals, h, hst, Music.resumeHandle]
  · simp [MusicPlayer.pauseOne, h, mfind_mupdate_self, hst, Music.resumeHandle]
  · simp [MusicPlayer.pauseAll, mfind_mapVals, h, hst]
  · simp [MusicPlayer.pauseOne, h, mfind_mupdate_self, hst]
  · simp [MusicPlayer.pauseOne, h, mfind_mupdate_ne _ _ _ _ hj]

/-- Witness for C6, the spec scenario: on a player with one playing track
(id 1) and one already-paused track (id 2), `pause(true)` pauses the playing
one and leaves the paused one untouched. -/
theorem musicPlayer_pause_exact_witness :
    mfind 1 (pauseDemo.pauseAll true).tracks =
      some ⟨{ Music.fresh with status := .Paused }, 100⟩ ∧
    mfind 2 (pauseDemo.pauseAll true).tracks =
      some ⟨{ Music.fresh with status := .Paused }, 100⟩ := by
  have h1 := (musicPlayer_pause_exact pauseDemo 1
    ⟨{ Music.fresh with status := .Playing }, 100⟩ rfl).1 rfl
  have h2 := (musicPlayer_pause_exact pauseDemo 2
    ⟨{ Music.fresh with status := .Paused }, 100⟩ rfl).2.1 (by decide)
  exact ⟨h1.1, h2.1⟩

/-! ## Claim C7 — sound unload removes properties, instances and buffer -/

theorem resourceHolder_unload_gone (h : ResourceHolder) (id : ℕ) :
    mfind id (h.unload id).resourceMap = none := by
  unfold ResourceHolder.unload
  cases hb : mfind id h.resourceMap with
  | none => simpa using hb
  | some r => simp [mfind_merase_self]

/-- Claim C7: for a loaded id, `SoundPlayer::unload(id)` removes the
properties entry, removes every active instance whose id matches (the count
of active instances for the id drops to 0 immediately, keeping exactly the
other instances), and removes the id's buffer from the buffer cache. -/
theorem soundPlayer_unload_removes_all (s : SoundPlayer) (id : ℕ)
    (P : AudioProperties) (h : mfind id s.soundProperties = some P) :
    mfind id (s.unload id).soundProperties = none ∧
    (s.unload id).sounds = s.sounds.filter (fun e => e.id != id) ∧
    ((s.unload id).sounds.filter fun e => e.id == id).length = 0 ∧
    mfind id (s.unload id).soundBuffers.resourceMap = none := by
  refine ⟨?_, ?_, ?_, ?_⟩
  · simp [SoundPlayer.unload, h, mfind_merase_self]
  · simp [SoundPlayer.unload, h]
  · simp only [SoundPlayer.unload, h, List.filter_filter]
    have : ∀ e : SoundEffect, ((e.id != id) && (e.id == id)) = false := by
      intro e
      by_cases he : e.id = id <;> simp [he]
    simp [this]
  · simp [SoundPlayer.unload, h, resourceHolder_unload_gone]

/-- Witness for C7, the spec scenario: unloading id 2 while an instance of
id 2 is playing empties the active list for id 2 at once. -/
theorem soundPlayer_unload_removes_all_witness :
    mfind 2 (soundDemoActive.unload 2).soundProperties = none ∧
    (soundDemoActive.unload 2).sounds = [] ∧
    mfind 2 (soundDemoActive.unload 2).soundBuffers.resourceMap = none := by
  have h := soundPlayer_unload_removes_all soundDemoActive 2 propsForty rfl
  refine ⟨h.1, ?_, h.2.2.2⟩
  rw [h.2.1]
  rfl

/-! ## Claim C1 — effective volume formula -/

theorem rescaleSounds_total (g : ℚ) (props : List (ℕ × AudioProperties)) :
    ∀ l : List SoundEffect, (∀ e ∈ l, (mfind e.id props).isSome) →
      (rescaleSounds g props l).2 = false ∧
      ∀ e2 ∈ (rescaleSounds g props l).1, ∃ Q, mfind e2.id props = some Q ∧
        e2.sound.volume = g * Q.volume / 100 := by
  intro l
  induction l with
  | nil => intro _; simp [rescaleSounds]
  | cons e t ih =>
    intro hall
    have hh := hall e (List.mem_cons_self e t)
    obtain ⟨p, hp⟩ := Option.isSome_iff_exists.mp hh
    have iht := ih fun e2 hm => hall e2 (List.mem_cons_of_mem _ hm)
    simp only [rescaleSounds, hp]
    refine ⟨iht.1, ?_⟩
    intro e2 hm
    rcases List.mem_cons.mp hm with heq | hmem
    · subst heq
      exact ⟨p, hp, rfl⟩
    · exact iht.2 e2 hmem

/-- Claim C1: for both players, playing a loaded id and re-scaling via
`setGlobalVolume` set the engine volume of the corresponding track /
instance(s) to `globalVolume * nominalVolume / 100` (for `setGlobalVolume`,
the freshly clamped global volume). -/
theorem effective_volume_formula (s : MusicPlayer) (pos : ℚ × ℚ) (id : ℕ)
    (loop : Bool) (tr : MusicTrack) (v : ℚ) (sp : SoundPlayer) (pos2 : ℚ × ℚ)
    (id2 : ℕ) (P : AudioProperties) (v2 : ℚ) :
    (mfind id s.tracks = some tr →
      ∃ tr2, mfind id (s.play pos id loop).tracks = some tr2 ∧
        tr2.music.volume = s.globalVolume * tr.VOLUME / 100) ∧
    (mfind id s.tracks = some tr →
      ∃ tr2, mfind id (s.setGlobalVolume v).tracks = some tr2 ∧
        tr2.music.volume = audioPlayerClampVolume v * tr.VOLUME / 100 ∧
        tr2.VOLUME = tr.VOLUME) ∧
    (mfind id2 sp.soundProperties = some P →
      ∃ e, (sp.play pos2 id2).sounds.getLast? = some e ∧ e.id = id2 ∧
        e.sound.volume = sp.globalVolume * P.volume / 100) ∧
    ((∀ e ∈ sp.sounds, (mfind e.id sp.soundProperties).isSome) →
      ∀ e ∈ (sp.setGlobalVolume v2).sounds, ∃ Q,
        mfind e.id sp.soundProperties = some Q ∧
        e.sound.volume = audioPlayerClampVolume v2 * Q.volume / 100) := by
  refine ⟨fun h => ?_, fun h => ?_, fun h => ?_, fun hall => ?_⟩
  · refine ⟨{ tr with music :=
        { tr.music with
          pos := (pos.1, -pos.2, 0)
          loop := loop
          volume := s.globalVolume * tr.VOLUME / 100
          status := .Playing } }, ?_, rfl⟩
    simp only [MusicPlayer.play, h, mfind_mupdate_self]
    rfl
  · refine ⟨{ tr with music :=
      { tr.music with volume := audioPlayerClampVolume v * tr.VOLUME / 100 } },
      ?_, rfl, rfl⟩
    simp only [MusicPlayer.setGlobalVolume, mfind_mapVals, h]
    rfl
  · refine ⟨⟨⟨.Playing, (pos2.1, -pos2.2, 0), sp.globalVolume * P.volume / 100,
      P.attenuation, P.pitch, P.minDistance3dSq, P.relativeToListener⟩, id2⟩,
      ?_, rfl, rfl⟩
    simp only [SoundPlayer.play, SoundPlayer.removeStoppedSounds, h,
      List.getLast?_concat]
  · intro e hm
    exact (rescaleSounds_total (audioPlayerClampVolume v2) sp.soundProperties
      sp.sounds hall).2 e hm

/-- Witness for C1, the spec scenario: with stored nominal volume 40 and
global volume 50, `play` sets the engine volume of the track / instance to
20 (= 50 × 40 / 100) for both players. -/
theorem effective_volume_formula_witness :
    (∃ tr2, mfind 1 (musicDemo.play (0, 0) 1 true).tracks = some tr2 ∧
      tr2.music.volume = 20) ∧
    (∃ e, (soundDemo.play (0, 0) 2).sounds.getLast? = some e ∧
      e.sound.volume = 20) := by
  have h := effective_volume_formula musicDemo (0, 0) 1 true ⟨Music.fresh, 40⟩ 0
    soundDemo (0, 0) 2 propsForty 0
  obtain ⟨tr2, h1, h2⟩ := h.1 rfl
  obtain ⟨e, h3, _, h4⟩ := h.2.2.1 rfl
  refine ⟨⟨tr2, h1, ?_⟩, ⟨e, h3, ?_⟩⟩
  · rw [h2]
    norm_num [musicDemo]
  · rw [h4]
    norm_num [soundDemo, propsForty, AudioProperties.ctor,
      AudioProperties.setVolume, AudioProperties.setAttenuation,
      AudioProperties.setMinDistance2D, clampQ]

/-! ## Claim C10 — reloading a sound id keeps the first properties -/

/-- Claim C10: when id is already loaded with properties `P`, a subsequent
`SoundPlayer::load(path2, P2, id)` (and the default-properties overload)
leaves the stored properties map unchanged — `std::map::insert` does not
overwrite — so a later `play(id)` still computes its instance volume from
`P`, never from `P2`. -/
theorem soundPlayer_reload_keeps_properties (s : SoundPlayer)
    (fsOk : String → Bool) (P2 : AudioProperties) (filepath2 : String)
    (listenerZ : ℚ) (id : ℕ) (pos : ℚ × ℚ) (P : AudioProperties)
    (hs : SortedKeys s.soundProperties)
    (h : mfind id s.soundProperties = some P) :
    (s.loadWith fsOk P2 filepath2 id).soundProperties = s.soundProperties ∧
    (s.load fsOk listenerZ filepath2 id).soundProperties = s.soundProperties ∧
    ∃ e, ((s.loadWith fsOk P2 filepath2 id).play pos id).sounds.getLast? = some e ∧
      e.id = id ∧ e.sound.volume = s.globalVolume * P.volume / 100 := by
  have hkeep := minsert_of_mfind_some id P2 s.soundProperties hs h
  have hkeep2 := minsert_of_mfind_some id (AudioProperties.default listenerZ)
    s.soundProperties hs h
  refine ⟨?_, ?_, ?_⟩
  · simp [SoundPlayer.loadWith, hkeep]
  · simp [SoundPlayer.load, hkeep2]
  · refine ⟨⟨⟨.Playing, (pos.1, -pos.2, 0), s.globalVolume * P.volume / 100,
      P.attenuation, P.pitch, P.minDistance3dSq, P.relativeToListener⟩, id⟩,
      ?_, rfl, rfl⟩
    simp only [SoundPlayer.play, SoundPlayer.removeStoppedSounds,
      SoundPlayer.loadWith, hkeep, h, List.getLast?_concat]

/-- Witness for C10: reloading id 2 of `soundDemo` with different properties
(volume 90) keeps the original volume-40 properties, and a later `play`
still produces an instance volume of 20 (= 50 × 40 / 100). -/
theorem soundPlayer_reload_keeps_properties_witness :
    (soundDemo.loadWith fsAll (AudioProperties.ctor 90 1 1 1 false 300)
        "b2.wav" 2).soundProperties = soundDemo.soundProperties ∧
    ∃ e, ((soundDemo.loadWith fsAll (AudioProperties.ctor 90 1 1 1 false 300)
        "b2.wav" 2).play (0, 0) 2).sounds.getLast? = some e ∧
      e.sound.volume = 20 := by
  have hs : SortedKeys soundDemo.soundProperties := by
    simp [SortedKeys, soundDemo]
  have h := soundPlayer_reload_keeps_properties soundDemo fsAll
    (AudioProperties.ctor 90 1 1 1 false 300) "b2.wav" 300 2 (0, 0) propsForty hs rfl
  obtain ⟨h1, _, e, he1, _, he3⟩ := h
  refine ⟨h1, e, he1, ?_⟩
  rw [he3]
  norm_num [soundDemo, propsForty, AudioProperties.ctor, AudioProperties.setVolume,
    AudioProperties.setAttenuation, AudioProperties.setMinDistance2D, clampQ]

/-! ## Claim C9 — `Math::pascalTriangle` computes the binomial row -/

theorem choose_mul_sub_eq (n i : ℕ) (h : i + 1 ≤ n) :
    n.choose i * (n - (i + 1) + 1) = n.choose (i + 1) * (i + 1) := by
  have hsub : n - (i + 1) + 1 = n - i := by omega
  rw [hsub, ← Nat.choose_succ_right_eq]

theorem rowInv_start (n : ℕ) : rowInv n 0 ((List.replicate (n + 1) 0).set 0 1) := by
  constructor
  · simp
  · intro j
    cases j with
    | zero =>
      have h0 : 0 < (List.replicate (n + 1) (0 : ℕ)).length := by simp
      simp [List.getD_eq_getElem?_getD, List.getElem?_set_self h0]
    | succ m =>
      rw [List.getD_eq_getElem?_getD, List.getElem?_set_ne (by omega)]
      rcases Nat.lt_or_ge (m + 1) (n + 1) with hlt | hge
      · simp [List.getElem?_replicate, hlt]
      · have hnone : (List.replicate (n + 1) (0 : ℕ))[m + 1]? = none :=
          List.getElem?_eq_none (by simpa using hge)
        simp [hnone]

theorem rowInv_loop1_step (n m : ℕ) (r : List ℕ) (hm : m + 1 ≤ n / 2)
    (hr : rowInv n m r) :
    rowInv n (m + 1) (r.set (m + 1) (r.getD (m + 1 - 1) 0 * (n - (m + 1) + 1) / (m + 1))) := by
  obtain ⟨hlen, hget⟩ := hr
  have hmn : m + 1 ≤ n := le_trans hm (Nat.div_le_self n 2)
  have hprev : r.getD (m + 1 - 1) 0 = n.choose m := by
    simp only [Nat.add_sub_cancel]
    rw [hget m, if_pos (le_refl m)]
  have hval : r.getD (m + 1 - 1) 0 * (n - (m + 1) + 1) / (m + 1) = n.choose (m + 1) := by
    rw [hprev, choose_mul_sub_eq n m hmn, Nat.mul_div_cancel _ (Nat.succ_pos m)]
  constructor
  · simpa using hlen
  · intro j
    by_cases hj : j = m + 1
    · subst hj
      have hin : m + 1 < r.length := by omega
      rw [List.getD_eq_getElem?_getD, List.getElem?_set_self hin, Option.getD_some, hval,
        if_pos (le_refl (m + 1))]
    · rw [List.getD_eq_getElem?_getD, List.getElem?_set_ne (fun hx => hj hx.symm),
        ← List.getD_eq_getElem?_getD, hget j]
      rcases Nat.lt_trichotomy j (m + 1) with hlt | heq | hgt
      · rw [if_pos (by omega), if_pos (by omega)]
      · exact absurd heq hj
      · rw [if_neg (by omega), if_neg (by omega)]

theorem rowInv_loop1 (n : ℕ) : ∀ m, m ≤ n / 2 →
    rowInv n m ((List.range' 1 m).foldl
      (fun r i => r.set i (r.getD (i - 1) 0 * (n - i + 1) / i))
      ((List.replicate (n + 1) 0).set 0 1)) := by
  intro m
  induction m with
  | zero => intro _; exact rowInv_start n
  | succ m ih =>
    intro hm
    rw [List.range'_concat, List.foldl_append]
    simp only [List.foldl_cons, List.foldl_nil, Nat.one_mul]
    rw [Nat.add_comm 1 m]
    exact rowInv_loop1_step n m _ hm (ih (Nat.le_of_succ_le hm))

theorem rowInv_loop2_step (n m2 : ℕ) (r : List ℕ) (hm : m2 + 1 ≤ n - n / 2)
    (hr : rowInv n (n / 2 + m2) r) :
    rowInv n (n / 2 + m2 + 1)
      (r.set (n / 2 + m2 + 1) (r.getD (n - (n / 2 + m2 + 1)) 0)) := by
  obtain ⟨hlen, hget⟩ := hr
  have hin : n / 2 + m2 + 1 ≤ n := by omega
  have hsym : n - (n / 2 + m2 + 1) ≤ n / 2 := by omega
  have hval : r.getD (n - (n / 2 + m2 + 1)) 0 = n.choose (n / 2 + m2 + 1) := by
    rw [hget, if_pos (le_trans hsym (Nat.le_add_right _ m2)),
      Nat.choose_symm hin]
  constructor
  · simpa using hlen
  · intro j
    by_cases hj : j = n / 2 + m2 + 1
    · subst hj
      have hlt : n / 2 + m2 + 1 < r.length := by omega
      rw [List.getD_eq_getElem?_getD, List.getElem?_set_self hlt, Option.getD_some,
        hval, if_pos (le_refl _)]
    · rw [List.getD_eq_getElem?_getD, List.getElem?_set_ne (fun hx => hj hx.symm),
        ← List.getD_eq_getElem?_getD, hget j]
      rcases Nat.lt_trichotomy j (n / 2 + m2 + 1) with hlt | heq | hgt
      · rw [if_pos (by omega), if_pos (by omega)]
      · exact absurd heq hj
      · rw [if_neg (by omega), if_neg (by omega)]

theorem rowInv_loop2 (n : ℕ) (r1 : List ℕ) (h1 : rowInv n (n / 2) r1) :
    ∀ m2, m2 ≤ n - n / 2 →
      rowInv n (n / 2 + m2)
        ((List.range' (n / 2 + 1) m2).foldl
          (fun r i => r.set i (r.getD (n - i) 0)) r1) := by
  intro m2
  induction m2 with
  | zero => intro _; simpa using h1
  | succ m2 ih =>
    intro hm
    rw [List.range'_concat, List.foldl_append]
    simp only [List.foldl_cons, List.foldl_nil, Nat.one_mul]
    have harr : n / 2 + 1 + m2 = n / 2 + m2 + 1 := by omega
    rw [harr]
    exact rowInv_loop2_step n m2 _ hm (ih (by omega))

/-- Correctness of the exact-arithmetic idealisation (helper, not the claim
theorem): over unbounded `ℕ` the two loops produce the binomial row of
length `n + 1`, and the division in the recurrence is exact. -/
theorem pascalTriangleExact_binomial (n : ℕ) :
    (pascalTriangleExact n).length = n + 1 ∧
    (∀ i, i ≤ n → (pascalTriangleExact n).getD i 0 = n.choose i) ∧
    (∀ i, 1 ≤ i → i ≤ n / 2 → i ∣ n.choose (i - 1) * (n - i + 1)) := by
  have hdef : pascalTriangleExact n =
      (List.range' (n / 2 + 1) (n - n / 2)).foldl
        (fun r i => r.set i (r.getD (n - i) 0))
        ((List.range' 1 (n / 2)).foldl
          (fun r i => r.set i (r.getD (i - 1) 0 * (n - i + 1) / i))
          ((List.replicate (n + 1) 0).set 0 1)) := rfl
  have hfin := rowInv_loop2 n _ (rowInv_loop1 n (n / 2) (le_refl _))
    (n - n / 2) (le_refl _)
  have hn : n / 2 + (n - n / 2) = n := by omega
  rw [hn] at hfin
  obtain ⟨hlen, hget⟩ := hfin
  refine ⟨?_, ?_, ?_⟩
  · rw [hdef]
    exact hlen
  · intro i hi
    rw [hdef, hget i, if_pos hi]
  · intro i h1 h2
    obtain ⟨m, rfl⟩ : ∃ m, i = m + 1 := ⟨i - 1, by omega⟩
    have hmn : m + 1 ≤ n := le_trans h2 (Nat.div_le_self n 2)
    exact ⟨n.choose (m + 1), by
      rw [Nat.add_sub_cancel, choose_mul_sub_eq n m hmn, Nat.mul_comm]⟩

theorem wrap32_eq_self {x : ℤ} (h1 : -2 ^ 31 ≤ x) (h2 : x < 2 ^ 31) : wrap32 x = x := by
  unfold wrap32
  rw [Int.emod_eq_of_lt (by omega) (by omega)]
  omega

theorem getD_map_intCast (l : List ℕ) (j : ℕ) :
    (l.map fun x : ℕ => (x : ℤ)).getD j 0 = ((l.getD j 0 : ℕ) : ℤ) := by
  induction l generalizing j with
  | nil => simp
  | cons a t ih =>
    cases j with
    | zero => simp
    | succ m => simpa using ih m

theorem loop2_map_cast (n : ℕ) :
    ∀ (m2 s : ℕ) (l : List ℕ),
      (List.range' s m2).foldl (fun r i => r.set i (r.getD (n - i) 0))
          (l.map fun x : ℕ => (x : ℤ)) =
        ((List.range' s m2).foldl (fun r i => r.set i (r.getD (n - i) 0)) l).map
          fun x : ℕ => (x : ℤ) := by
  intro m2
  induction m2 with
  | zero => intro s l; simp
  | succ m2 ih =>
    intro s l
    rw [List.range'_succ, List.foldl_cons, List.foldl_cons,
      getD_map_intCast, ← List.map_set]
    exact ih (s + 1) _

theorem loop1_step_cast (n m : ℕ) (rN : List ℕ) (hm : m + 1 ≤ n / 2)
    (hfit : ∀ i, 1 ≤ i → i ≤ n / 2 → n.choose (i - 1) * (n - i + 1) < 2 ^ 31)
    (hget : ∀ j, rN.getD j 0 = if j ≤ m then n.choose j else 0) :
    (rN.map fun x : ℕ => (x : ℤ)).set (m + 1)
        ((wrap32 ((rN.map fun x : ℕ => (x : ℤ)).getD (m + 1 - 1) 0 *
          wrap32 (wrap32 ((n : ℤ) - ((m + 1 : ℕ) : ℤ)) + 1))).tdiv ((m + 1 : ℕ) : ℤ)) =
      (rN.set (m + 1) (rN.getD (m + 1 - 1) 0 * (n - (m + 1) + 1) / (m + 1))).map
        fun x : ℕ => (x : ℤ) := by
  have hmn : m + 1 ≤ n := le_trans hm (Nat.div_le_self n 2)
  have hnlt : n < 2 ^ 31 := by
    have h1 := hfit 1 (le_refl 1) (le_trans (by omega) hm)
    rw [show (1 : ℕ) - 1 = 0 from rfl, Nat.choose_zero_right, one_mul] at h1
    omega
  have hfitm := hfit (m + 1) (by omega) hm
  rw [Nat.add_sub_cancel] at hfitm
  have hprev : rN.getD (m + 1 - 1) 0 = n.choose m := by
    rw [Nat.add_sub_cancel, hget m, if_pos (le_refl m)]
  have w1 : wrap32 ((n : ℤ) - ((m + 1 : ℕ) : ℤ)) = ((n - (m + 1) : ℕ) : ℤ) := by
    rw [wrap32_eq_self (by omega) (by omega)]
    omega
  have w2 : wrap32 (((n - (m + 1) : ℕ) : ℤ) + 1) = ((n - (m + 1) + 1 : ℕ) : ℤ) := by
    rw [wrap32_eq_self (by omega) (by omega)]
    omega
  have w3 : wrap32 (((n.choose m : ℕ) : ℤ) * ((n - (m + 1) + 1 : ℕ) : ℤ)) =
      ((n.choose m * (n - (m + 1) + 1) : ℕ) : ℤ) := by
    rw [← Nat.cast_mul, wrap32_eq_self (by omega) (by exact_mod_cast hfitm)]
  rw [List.map_set]
  rw [getD_map_intCast, hprev, w1, w2, w3, ← Int.ofNat_tdiv]

theorem loop1_map_cast (n : ℕ)
    (hfit : ∀ i, 1 ≤ i → i ≤ n / 2 → n.choose (i - 1) * (n - i + 1) < 2 ^ 31) :
    ∀ m, m ≤ n / 2 →
      (List.range' 1 m).foldl
          (fun r i => r.set i
            ((wrap32 (r.getD (i - 1) 0 *
              wrap32 (wrap32 ((n : ℤ) - (i : ℤ)) + 1))).tdiv (i : ℤ)))
          ((List.replicate (n + 1) (0 : ℤ)).set 0 1) =
        ((List.range' 1 m).foldl
            (fun r i => r.set i (r.getD (i - 1) 0 * (n - i + 1) / i))
            ((List.replicate (n + 1) 0).set 0 1)).map (fun x : ℕ => (x : ℤ)) := by
  intro m
  induction m with
  | zero =>
    intro _
    simp only [List.range'_zero, List.foldl_nil]
    rw [List.map_set, List.map_replicate]
    simp
  | succ m ih =>
    intro hm
    rw [List.range'_concat, List.foldl_append, List.foldl_append]
    simp only [List.foldl_cons, List.foldl_nil, Nat.one_mul]
    rw [Nat.add_comm 1 m]
    rw [ih (Nat.le_of_succ_le hm)]
    exact loop1_step_cast n m _ hm hfit (rowInv_loop1 n m (Nat.le_of_succ_le hm)).2

theorem pascalTriangle_eq_exact (n : ℕ)
    (hfit : ∀ i, 1 ≤ i → i ≤ n / 2 → n.choose (i - 1) * (n - i + 1) < 2 ^ 31) :
    pascalTriangle n = (pascalTriangleExact n).map (fun x : ℕ => (x : ℤ)) := by
  have hdef32 : pascalTriangle n =
      (List.range' (n / 2 + 1) (n - n / 2)).foldl
        (fun r i => r.set i (r.getD (n - i) 0))
        ((List.range' 1 (n / 2)).foldl
          (fun r i => r.set i
            ((wrap32 (r.getD (i - 1) 0 *
              wrap32 (wrap32 ((n : ℤ) - (i : ℤ)) + 1))).tdiv (i : ℤ)))
          ((List.replicate (n + 1) (0 : ℤ)).set 0 1)) := rfl
  have hdefN : pascalTriangleExact n =
      (List.range' (n / 2 + 1) (n - n / 2)).foldl
        (fun r i => r.set i (r.getD (n - i) 0))
        ((List.range' 1 (n / 2)).foldl
          (fun r i => r.set i (r.getD (i - 1) 0 * (n - i + 1) / i))
          ((List.replicate (n + 1) 0).set 0 1)) := rfl
  rw [hdef32, hdefN, loop1_map_cast n hfit (n / 2) (le_refl _),
    loop2_map_cast n (n - n / 2) (n / 2 + 1)]

set_option maxRecDepth 4000 in
/-- Claim C9, counterexample: at `n = 30` the claim's own regime holds —
every binomial coefficient of the row fits a 32-bit `int`, since
`C(30, i) ≤ C(30, 15) = 155117520 < 2^31` (`Nat.choose_le_middle`) — yet the
program does not return `C(30, 15)`: the intermediate product
`row[14] * (30 - 15 + 1) = 145422675 * 16 = 2326762800` exceeds `INT_MAX`, so
under 32-bit wraparound entry 15 comes out as `-131213633`. -/
theorem pascalTriangle_int_overflow :
    (∀ i, i ≤ 30 → Nat.choose 30 i < 2 ^ 31) ∧
    (pascalTriangle 30).getD 15 0 = -131213633 ∧
    (pascalTriangle 30).getD 15 0 ≠ ((Nat.choose 30 15 : ℕ) : ℤ) := by
  have hch : Nat.choose 30 15 = 155117520 := by
    have h := (pascalTriangleExact_binomial 30).2.1 15 (by omega)
    rw [← h]
    decide
  have hmid : ∀ i, i ≤ 30 → Nat.choose 30 i < 2 ^ 31 := by
    intro i _
    have h := Nat.choose_le_middle i 30
    have h15 : Nat.choose 30 (30 / 2) = 155117520 := hch
    omega
  refine ⟨hmid, by decide, ?_⟩
  rw [hch]
  decide

/-- Claim C9, amended: for every `n ≥ 0` such that every intermediate
product `row[i-1] * (n - i + 1) = C(n, i-1) * (n - i + 1)`, `1 ≤ i ≤ n/2`,
fits in a machine `int` (a strictly stronger condition than all `C(n, i)`
fitting, first separated at `n = 30`), `Math::pascalTriangle(n)` returns a
row of length `n + 1` whose entry at every index `i ≤ n` is the binomial
coefficient `C(n, i)`; the integer division in the recurrence is exact for
every `1 ≤ i ≤ n/2`, and the second loop fills indices `n/2 + 1 .. n` by the
symmetry `C(n, i) = C(n, n - i)`. -/
theorem pascalTriangle_binomial_noOverflow (n : ℕ)
    (hfit : ∀ i, 1 ≤ i → i ≤ n / 2 → n.choose (i - 1) * (n - i + 1) < 2 ^ 31) :
    (pascalTriangle n).length = n + 1 ∧
    (∀ i, i ≤ n → (pascalTriangle n).getD i 0 = ((n.choose i : ℕ) : ℤ)) ∧
    (∀ i, 1 ≤ i → i ≤ n / 2 → i ∣ n.choose (i - 1) * (n - i + 1)) := by
  have heq := pascalTriangle_eq_exact n hfit
  have hex := pascalTriangleExact_binomial n
  refine ⟨?_, ?_, hex.2.2⟩
  · rw [heq, List.length_map]
    exact hex.1
  · intro i hi
    rw [heq, getD_map_intCast, hex.2.1 i hi]

set_option maxRecDepth 4000 in
/-- Witness for the amended C9 at `n = 6`, `i = 2`: the overflow-freedom
hypothesis holds, the row has length 7 with entry 15 = C(6, 2), and the
division step at `i = 2` is exact. -/
theorem pascalTriangle_binomial_noOverflow_witness :
    (pascalTriangle 6).length = 7 ∧ (pascalTriangle 6).getD 2 0 = 15 ∧
    2 ∣ Nat.choose 6 1 * 5 := by
  have h := pascalTriangle_binomial_noOverflow 6 (by
    intro i h1 h2
    have : i ≤ 3 := by omega
    interval_cases i <;> decide)
  exact ⟨h.1, by rw [h.2.1 2 (by omega)]; decide, h.2.2 2 (by omega) (by omega)⟩
